import Mathlib

/-!
A verification development for the photo ingestion and publishing pipeline
(`release_photos.py`, `release_photos_s3.py`, `manage_photos.py`).

The Python source is shallowly embedded: pure helper functions become Lean
functions on `String`/`Nat`/lists, stateful or effectful steps (store listing,
uploads, manifest reads and writes, PIL image operations, OpenAI calls) are
modelled by explicit data flow, with externally supplied outcomes for the
effectful collaborators (parse results, API responses, image properties).
-/

set_option maxRecDepth 100000

namespace WaypointMedia

/-! ## Basic string utilities mirroring the Python standard library -/

/-- Index of the last `'.'` in a character list, if any. -/
def lastDotIdx (cs : List Char) : Option Nat :=
  (List.range cs.length).foldl
    (fun acc i => if cs.getD i ' ' = '.' then some i else acc) none

/-- Whether some character strictly before index `i` is not a `'.'`
(CPython `splitext` skips leading dots). -/
def hasNonDotBefore (cs : List Char) (i : Nat) : Bool :=
  (cs.take i).any (fun c => c ≠ '.')

/-- Python `os.path.splitext` restricted to plain basenames (no slashes):
split at the rightmost dot, unless every character before it is itself a dot. -/
def splitext (s : String) : String × String :=
  let cs := s.data
  match lastDotIdx cs with
  | none => (s, "")
  | some i =>
    if hasNonDotBefore cs i then (⟨cs.take i⟩, ⟨cs.drop i⟩) else (s, "")

/-- Python `pathlib.Path(p).with_suffix(".jpg")` on a plain basename:
replace the extension (as computed by `splitext`) with `.jpg`. -/
def withSuffixJpg (s : String) : String :=
  (splitext s).1 ++ ".jpg"

/-- Python `'-'.join(parts)`. -/
def joinHyphen : List String → String
  | [] => ""
  | [s] => s
  | s :: rest => s ++ "-" ++ joinHyphen rest

/-- The decimal digit character for `d` (0-9). -/
def digitChar (d : Nat) : Char := Char.ofNat (48 + d)

/-- Most-significant-first decimal digits of `n`, with enough fuel. -/
def natDigitsAux : Nat → Nat → List Char
  | 0, _ => []
  | fuel + 1, n =>
    if n < 10 then [digitChar n]
    else natDigitsAux fuel (n / 10) ++ [digitChar (n % 10)]

/-- The decimal representation of a natural number, as Python `"%d"` prints
it (most-significant digit first, no leading zeros). -/
def natDigits (n : Nat) : List Char := natDigitsAux (n + 1) n

/-- Python `"{:03d}".format(c)` for a non-negative counter: zero-pad to
width 3; larger numbers print their full decimal representation. -/
def pad3 (c : Nat) : String :=
  if c < 1000 then
    ⟨[digitChar (c / 100), digitChar (c / 10 % 10), digitChar (c % 10)]⟩
  else
    ⟨natDigits c⟩

/-! ## MD5 (RFC 1321), executable over `Nat` with explicit 32-bit wrap-around.
Needed because `generate_unique_prefix` hashes the shoot name with
`hashlib.md5(...).hexdigest()[:6]`. -/

def md5modulus : Nat := 4294967296

def add32 (a b : Nat) : Nat := (a + b) % md5modulus

def not32 (x : Nat) : Nat := 4294967295 ^^^ x

def rotl32 (x n : Nat) : Nat :=
  ((x <<< n) % md5modulus) ||| (x >>> (32 - n))

/-- Per-round sine-derived constants `K[i] = floor(2^32 * abs(sin(i+1)))`. -/
def md5K : List Nat :=
  [0xd76aa478, 0xe8c7b756, 0x242070db, 0xc1bdceee,
   0xf57c0faf, 0x4787c62a, 0xa8304613, 0xfd469501,
   0x698098d8, 0x8b44f7af, 0xffff5bb1, 0x895cd7be,
   0x6b901122, 0xfd987193, 0xa679438e, 0x49b40821,
   0xf61e2562, 0xc040b340, 0x265e5a51, 0xe9b6c7aa,
   0xd62f105d, 0x02441453, 0xd8a1e681, 0xe7d3fbc8,
   0x21e1cde6, 0xc33707d6, 0xf4d50d87, 0x455a14ed,
   0xa9e3e905, 0xfcefa3f8, 0x676f02d9, 0x8d2a4c8a,
   0xfffa3942, 0x8771f681, 0x6d9d6122, 0xfde5380c,
   0xa4beea44, 0x4bdecfa9, 0xf6bb4b60, 0xbebfbc70,
   0x289b7ec6, 0xeaa127fa, 0xd4ef3085, 0x04881d05,
   0xd9d4d039, 0xe6db99e5, 0x1fa27cf8, 0xc4ac5665,
   0xf4292244, 0x432aff97, 0xab9423a7, 0xfc93a039,
   0x655b59c3, 0x8f0ccc92, 0xffeff47d, 0x85845dd1,
   0x6fa87e4f, 0xfe2ce6e0, 0xa3014314, 0x4e0811a1,
   0xf7537e82, 0xbd3af235, 0x2ad7d2bb, 0xeb86d391]

/-- Per-round left-rotation amounts. -/
def md5S : List Nat :=
  [7, 12, 17, 22, 7, 12, 17, 22, 7, 12, 17, 22, 7, 12, 17, 22,
   5, 9, 14, 20, 5, 9, 14, 20, 5, 9, 14, 20, 5, 9, 14, 20,
   4, 11, 16, 23, 4, 11, 16, 23, 4, 11, 16, 23, 4, 11, 16, 23,
   6, 10, 15, 21, 6, 10, 15, 21, 6, 10, 15, 21, 6, 10, 15, 21]

/-- Round mixing function: F, G, H, I by round quarter. -/
def md5F (i b c d : Nat) : Nat :=
  if i < 16 then (b &&& c) ||| (not32 b &&& d)
  else if i < 32 then (d &&& b) ||| (not32 d &&& c)
  else if i < 48 then b ^^^ c ^^^ d
  else c ^^^ (b ||| not32 d)

/-- Message-word schedule index by round. -/
def md5G (i : Nat) : Nat :=
  if i < 16 then i
  else if i < 32 then (5 * i + 1) % 16
  else if i < 48 then (3 * i + 5) % 16
  else (7 * i) % 16

/-- Little-endian 32-bit word `j` of a 64-byte block. -/
def word32le (block : List Nat) (j : Nat) : Nat :=
  block.getD (4 * j) 0 + 256 * block.getD (4 * j + 1) 0 +
    65536 * block.getD (4 * j + 2) 0 + 16777216 * block.getD (4 * j + 3) 0

/-- Process one 64-byte chunk. -/
def md5Chunk (st : Nat × Nat × Nat × Nat) (block : List Nat) :
    Nat × Nat × Nat × Nat :=
  let (a0, b0, c0, d0) := st
  let (a, b, c, d) := (List.range 64).foldl
    (fun st i =>
      let (a, b, c, d) := st
      let f := add32 (add32 (add32 (md5F i b c d) a) (md5K.getD i 0))
        (word32le block (md5G i))
      (d, add32 b (rotl32 f (md5S.getD i 0)), b, c))
    (a0, b0, c0, d0)
  (add32 a0 a, add32 b0 b, add32 c0 c, add32 d0 d)

def md5Chunks : Nat → (Nat × Nat × Nat × Nat) → List Nat →
    Nat × Nat × Nat × Nat
  | 0, st, _ => st
  | n + 1, st, bytes => md5Chunks n (md5Chunk st (bytes.take 64)) (bytes.drop 64)

/-- Little-endian byte expansion of a 64-bit length field. -/
def le8 (n : Nat) : List Nat :=
  [n % 256, n / 256 % 256, n / 65536 % 256, n / 16777216 % 256,
   n / 4294967296 % 256, n / 1099511627776 % 256,
   n / 281474976710656 % 256, n / 72057594037927936 % 256]

/-- Little-endian byte expansion of a 32-bit word. -/
def le4 (n : Nat) : List Nat :=
  [n % 256, n / 256 % 256, n / 65536 % 256, n / 16777216 % 256]

/-- MD5 padding: `0x80`, zeros to 56 mod 64, then the bit length (LE, 64-bit). -/
def md5Pad (msg : List Nat) : List Nat :=
  msg ++ [128] ++ List.replicate ((119 - msg.length % 64) % 64) 0 ++
    le8 ((8 * msg.length) % 18446744073709551616)

/-- MD5 digest of a byte sequence, as 16 bytes. -/
def md5Bytes (msg : List Nat) : List Nat :=
  let padded := md5Pad msg
  let (a, b, c, d) := md5Chunks (padded.length / 64)
    (0x67452301, 0xefcdab89, 0x98badcfe, 0x10325476) padded
  le4 a ++ le4 b ++ le4 c ++ le4 d

def hexDigit (n : Nat) : Char :=
  Char.ofNat (if n < 10 then 48 + n else 87 + n)

def byteHex (b : Nat) : List Char :=
  [hexDigit (b / 16), hexDigit (b % 16)]

/-- UTF-8 encoding of a single code point (Python `str.encode()`). -/
def utf8Char (n : Nat) : List Nat :=
  if n < 128 then [n]
  else if n < 2048 then [192 ||| n / 64, 128 ||| n % 64]
  else if n < 65536 then
    [224 ||| n / 4096, 128 ||| n / 64 % 64, 128 ||| n % 64]
  else
    [240 ||| n / 262144, 128 ||| n / 4096 % 64, 128 ||| n / 64 % 64,
     128 ||| n % 64]

/-- UTF-8 bytes of a string. -/
def utf8Bytes (s : String) : List Nat :=
  (s.data.map (fun c => utf8Char c.toNat)).foldr (· ++ ·) []

/-- Python `hashlib.md5(s.encode()).hexdigest()`. -/
def md5hex (s : String) : String :=
  ⟨((md5Bytes (utf8Bytes s)).map byteHex).foldr (· ++ ·) []⟩

/-! ## More Python string primitives (defined on `String.data` so that they
evaluate by kernel reduction) -/

/-- Python slicing `s[:n]` by code points. -/
def pyTake (s : String) (n : Nat) : String := ⟨s.data.take n⟩

/-- Python `str.lower()` (ASCII range, which is all the pipeline uses). -/
def pyLower (s : String) : String := ⟨s.data.map Char.toLower⟩

/-- Python `name.replace("-", "").replace("_", "")`. -/
def removeSeparators (name : String) : String :=
  ⟨name.data.filter (fun c => c ≠ '-' && c ≠ '_')⟩

/-- Python `s.replace("_", "-").replace(" ", "-")`. -/
def toHyphens (s : String) : String :=
  ⟨s.data.map (fun c => if c = '_' || c = ' ' then '-' else c)⟩

/-- Python `str.isdigit()` (ASCII digits): true iff nonempty and all digits. -/
def pyIsDigit (s : String) : Bool :=
  !s.data.isEmpty && s.data.all (·.isDigit)

/-! ## NameGenerator (`generate_unique_prefix`, `generate_prefixed_filename`,
identical in `release_photos.py` and `release_photos_s3.py`) -/

/-- Embeds `generate_unique_prefix(shoot_name, method)`:
`"hash"` → `shoot_name[:8] + "-" + md5(shoot_name).hexdigest()[:6]`;
`"simple"` → cleaned, lower-cased name truncated to 12 characters;
otherwise the cleaned name unchanged. -/
def generate_unique_prefix (shoot_name method : String) : String :=
  if method = "hash" then
    pyTake shoot_name 8 ++ "-" ++ pyTake (md5hex shoot_name) 6
  else if method = "simple" then
    pyTake (pyLower (toHyphens shoot_name)) 12
  else
    pyLower (toHyphens shoot_name)

/-- Embeds `if room_type: parts.append(room_type)` — the contribution of the
room type to the parts list (Python truthiness: the empty string is falsy). -/
def roomPart : Option String → List String
  | some r => if r.data.isEmpty then [] else [r]
  | none => []

/-- Embeds `if counter is not None: parts.append(f"{counter:03d}")`. -/
def counterPart : Option Nat → List String
  | some c => [pad3 c]
  | none => []

/-- Embeds the cleaned-stem contribution: strip hyphens/underscores from the
stem and append it only when nonempty and not all digits. -/
def stemPart (original : String) : List String :=
  let clean := removeSeparators (splitext original).1
  if !clean.data.isEmpty && !pyIsDigit clean then [clean] else []

/-- Embeds `generate_prefixed_filename(original_filename, prefix, counter,
room_type)`: starts from `[prefix]`, appends the room type when truthy, then
`"{:03d}".format(counter)` when the counter is not `None`, then the cleaned
original stem when it is nonempty and not all digits, joins the parts with
hyphens and restores the original extension. -/
def generate_prefixed_filename (original pfx : String) (counter : Option Nat)
    (room_type : Option String) : String :=
  joinHyphen ([pfx] ++ roomPart room_type ++ counterPart counter ++
    stemPart original) ++ (splitext original).2

/-- Hyphen-prefixed concatenation of optional filename segments; used to state
the spec's description of the filename layout. -/
def segs : List String → String
  | [] => ""
  | x :: xs => "-" ++ x ++ segs xs

/-- Modelled from the spec's words (for the refinement claim C4):
`prefix[-roomType][-counter:03d][-cleanedOriginalStem]` + original extension,
the stem omitted when empty or all digits, the room type omitted when absent
or empty. -/
def specFilename (original pfx : String) (counter : Option Nat)
    (room_type : Option String) : String :=
  let ne := splitext original
  let clean := removeSeparators ne.1
  pfx
    ++ (match room_type with
        | some r => if r.data.isEmpty then "" else "-" ++ r
        | none => "")
    ++ (match counter with
        | some c => "-" ++ pad3 c
        | none => "")
    ++ (if clean.data.isEmpty || pyIsDigit clean then "" else "-" ++ clean)
    ++ ne.2

/-! ## ImageTranscoder (`downsample_image`, identical in both scripts).
The PIL collaborator is effectful; its per-call outcomes (library presence,
`Image.open` result, whether `resize`/`save` raise) are supplied as data. -/

inductive ImgMode
  | RGBA | LA | P | RGB | L | CMYK | other
deriving DecidableEq, Repr

structure Img where
  mode : ImgMode
  width : Nat
  height : Nat
deriving DecidableEq, Repr

/-- External outcomes of the PIL collaborator for one `downsample_image`
call. -/
structure PilEnv where
  pil_available : Bool
  openResult : Except String Img
  resizeRaises : Option String
  saveRaises : Option String

/-- What lands at the output path: the input bytes copied verbatim
(`shutil.copy2`), or a JPEG re-encode of the (possibly RGB-converted,
possibly resized) image at the requested quality with `optimize=True`. -/
inductive OutFile
  | verbatimCopy
  | jpeg (mode : ImgMode) (resizeRatio : Option ℚ) (quality : Nat)
deriving DecidableEq, Repr

structure TranscodeResult where
  out : OutFile
  succeeded : Bool
deriving DecidableEq, Repr

/-- Embeds `downsample_image(input_path, output_path, max_width, max_height,
quality)`: PIL missing → verbatim copy, `False`; open failure or any raise
during processing → verbatim copy, `False` (the `except` fallback); RGBA/LA/P
converted to RGB; within bounds → re-encode without resizing; otherwise
resize by `min(max_width/width, max_height/height)` and re-encode. -/
def downsample_image (env : PilEnv) (max_width max_height quality : Nat) :
    TranscodeResult :=
  if !env.pil_available then ⟨.verbatimCopy, false⟩
  else
    match env.openResult with
    | .error _ => ⟨.verbatimCopy, false⟩
    | .ok img =>
      let img2 := if img.mode = .RGBA ∨ img.mode = .LA ∨ img.mode = .P then
          { img with mode := ImgMode.RGB }
        else img
      if img2.width ≤ max_width ∧ img2.height ≤ max_height then
        match env.saveRaises with
        | some _ => ⟨.verbatimCopy, false⟩
        | none => ⟨.jpeg img2.mode none quality, true⟩
      else
        match env.resizeRaises with
        | some _ => ⟨.verbatimCopy, false⟩
        | none =>
          match env.saveRaises with
          | some _ => ⟨.verbatimCopy, false⟩
          | none =>
            ⟨.jpeg img2.mode
              (some (min ((max_width : ℚ) / img2.width)
                ((max_height : ℚ) / img2.height))) quality, true⟩

/-! ## RoomClassifier (`classify_image_with_ai`). The OpenAI collaborator is
effectful; the outcome of each API attempt is supplied as data, indexed by
attempt number. -/

/-- The closed 18-label vocabulary (`valid_types` in the source). -/
def valid_types : List String :=
  ["exterior", "living", "kitchen", "dining", "bedroom", "master",
   "bathroom", "garage", "closet", "laundry", "utility", "storage",
   "office", "family", "den", "guest", "basement", "attic"]

/-- Python whitespace recognized by `str.strip()`. -/
def pyIsSpace (c : Char) : Bool :=
  c = ' ' || c = '\t' || c = '\n' || c = '\r' || c = '\x0b' || c = '\x0c'

/-- Python `str.strip()`. -/
def pyStrip (s : String) : String :=
  ⟨((s.data.dropWhile pyIsSpace).reverse.dropWhile pyIsSpace).reverse⟩

/-- Embeds `response.choices[0].message.content.strip().lower()`. -/
def normalizeResp (s : String) : String := pyLower (pyStrip s)

/-- Outcome of one `client.chat.completions.create` call: the returned
message content, or a raised exception. -/
inductive ApiOutcome
  | ok (content : String)
  | raises (msg : String)

/-- Embeds the `for attempt in range(max_retries)` retry loop: `i` is the
0-based attempt about to run, `remaining` the attempts left including it.
Returns the classification result plus the number of API calls made. An
in-vocabulary answer is returned; an out-of-vocabulary answer falls through
to the next attempt (`continue`); a raised call retries while
`attempt < max_retries - 1` and otherwise returns `None`; falling off the
loop returns `None`. -/
def classifyLoop (outcome : Nat → ApiOutcome) : Nat → Nat →
    Option String × Nat
  | i, 0 => (none, i)
  | i, r + 1 =>
    match outcome i with
    | .ok content =>
      let classification := normalizeResp content
      if valid_types.contains classification then (some classification, i + 1)
      else classifyLoop outcome (i + 1) r
    | .raises _ =>
      if 0 < r then classifyLoop outcome (i + 1) r
      else (none, i + 1)

/-- Embeds `classify_image_with_ai(image_path, max_retries=3)`: short-circuit
to `None` with zero API calls when the client library is missing or
`OPENAI_API_KEY` is absent; a raise while reading/encoding the image file is
caught and yields `None`; otherwise run the retry loop. -/
def classify_image_with_ai (openai_available : Bool) (api_key : Option String)
    (file_read_ok : Bool) (outcome : Nat → ApiOutcome) (max_retries : Nat) :
    Option String × Nat :=
  if !openai_available then (none, 0)
  else
    match api_key with
    | none => (none, 0)
    | some _ =>
      if !file_read_ok then (none, 0)
      else classifyLoop outcome 0 max_retries

/-! ## PublishPipeline store diffing (`upload_photos_to_release` in
`release_photos.py`; `upload_photos_to_s3` partitions identically with
`{shoot}/`-prefixed keys). -/

/-- One entry of `photo_urls`: the generated target filename and the original
source basename. -/
structure PhotoData where
  filename : String
  original_filename : String
deriving DecidableEq, Repr

/-- Embeds the partition of `photo_urls` against the store's existing keys:
in force mode everything is uploaded and the generated target filenames
already present are scheduled for deletion; otherwise present filenames are
skipped and the rest uploaded. Returns
`(photos_to_upload, skipped_photos, photos_to_delete)`. -/
def partitionPhotos (photo_urls : List PhotoData)
    (existing_assets : List String) (force_reupload : Bool) :
    List PhotoData × List String × List String :=
  if force_reupload then
    (photo_urls, [],
     (photo_urls.filter
       (fun p => decide (p.filename ∈ existing_assets))).map (·.filename))
  else
    (photo_urls.filter (fun p => !decide (p.filename ∈ existing_assets)),
     (photo_urls.filter
       (fun p => decide (p.filename ∈ existing_assets))).map (·.filename),
     [])

/-- Embeds the upload-stage renaming: with `no_downsample` the prepared file
keeps the generated target filename; otherwise the temp path is switched to
a `.jpg` suffix (`temp_file_path.with_suffix(".jpg")`) and
`photo_data["filename"]` is updated accordingly. -/
def finalUploadName (no_downsample : Bool) (f : String) : String :=
  if no_downsample then f else withSuffixJpg f

/-- Asset names uploaded by one run without AI classification. -/
def runUploadedNames (photo_urls : List PhotoData)
    (existing_assets : List String) (force_reupload no_downsample : Bool) :
    List String :=
  ((partitionPhotos photo_urls existing_assets force_reupload).1).map
    (fun p => finalUploadName no_downsample p.filename)

/-- The store's key set after a run: the existing keys plus whatever the run
uploaded. -/
def storeAfterRun (photo_urls : List PhotoData) (existing_assets : List String)
    (force_reupload no_downsample : Bool) : List String :=
  existing_assets ++
    runUploadedNames photo_urls existing_assets force_reupload no_downsample

/-- Embeds the force-reupload path of the GitHub backend: the partition
(everything uploaded, present keys scheduled for deletion) followed by the
best-effort delete call, whose failure is caught (`except` prints a warning)
so the upload step runs either way. The result is
`(photos_to_upload, photos_to_delete, delete_warning_printed)`. -/
def ghForceRun (photo_urls : List PhotoData) (existing_assets : List String)
    (deleteSucceeded : Bool) : List PhotoData × List String × Bool :=
  ((partitionPhotos photo_urls existing_assets true).1,
   (partitionPhotos photo_urls existing_assets true).2.2,
   !deleteSucceeded)

/-- Embeds the S3 object key `f"{shoot_name}/{filename}"`. -/
def s3Key (shoot_name fn : String) : String := shoot_name ++ "/" ++ fn

/-- Embeds the force-reupload branch of the S3 backend
(`release_photos_s3.py`): `photos_to_upload = photo_urls` and no key is ever
scheduled for deletion — this backend has no delete step at all. -/
def s3ForceRun (photo_urls : List PhotoData) : List PhotoData × List String :=
  (photo_urls, [])

/-! ## ManifestStore: `update_photos_json` (both publishing scripts),
`load_existing_config` and the merge loop of `manage_photos.py`. -/

/-- A manifest entry as the scripts construct it. -/
structure ShootData where
  title : String
  description : String
  category : String
  images : List String
deriving DecidableEq, Repr

/-- The JSON manifest: a mapping from shoot id to entry, embedded as an
insertion-ordered association list with unique keys (a Python dict). -/
abbrev Manifest := List (String × ShootData)

/-- Python dict lookup. -/
def dictGet {α : Type} : List (String × α) → String → Option α
  | [], _ => none
  | (k, v) :: rest, key => if k = key then some v else dictGet rest key

/-- Python dict assignment `d[key] = val`: overwrite in place, else append. -/
def dictSet {α : Type} : List (String × α) → String → α → List (String × α)
  | [], key, val => [(key, val)]
  | (k, v) :: rest, key, val =>
    if k = key then (k, val) :: rest else (k, v) :: dictSet rest key val

/-- Embeds `update_photos_json(shoot_id, shoot_data)` of both publishing
scripts: after loading, `data[shoot_id] = shoot_data` replaces the whole
entry, then the manifest is dumped. Generic in the entry type, as the
function never inspects the value. -/
def update_photos_json {α : Type} (data : List (String × α))
    (shoot_id : String) (shoot_data : α) : List (String × α) :=
  dictSet data shoot_id shoot_data

/-- Embeds `load_existing_config()` of `manage_photos.py`: absent file →
`{}`; `json.JSONDecodeError` → warning and `{}`; else the parsed manifest. -/
def load_existing_config (file_exists : Bool)
    (parsed : Except String Manifest) : Manifest :=
  if file_exists then
    match parsed with
    | .ok d => d
    | .error _ => []
  else []

/-- Embeds the manifest load inside `update_photos_json` of
`release_photos.py` / `release_photos_s3.py`: `json.load(f)` runs with no
exception handler, so a parse failure propagates as a raised exception. -/
def pipelineManifestLoad (file_exists : Bool)
    (parsed : Except String Manifest) : Except String Manifest :=
  if file_exists then parsed else .ok []

/-- Embeds the merge loop of `manage_photos.main`: starting from a copy of
the existing config, each scanned shoot either overwrites only the `images`
field of an existing entry or is inserted verbatim. -/
def mergeScanned : Manifest → List (String × ShootData) → Manifest
  | acc, [] => acc
  | acc, e :: rest =>
    mergeScanned
      (match dictGet acc e.1 with
       | some old => dictSet acc e.1 { old with images := e.2.images }
       | none => dictSet acc e.1 e.2)
      rest

/-! ## Theorems -/

example : md5hex "" = "d41d8cd98f00b204e9800998ecf8427e" := by decide
example : md5hex "abc" = "900150983cd24fb0d6963f7d28e17f72" := by decide
example : md5hex "lakehouse" = "8b75df7a95433f0750823b24c9773643" := by decide
example : generate_unique_prefix "lakehouse" "hash" = "lakehous-8b75df" := by
  decide
example : generate_prefixed_filename "A.JPG" "lakehous-8b75df" none none
    = "lakehous-8b75df-A.JPG" := by decide
example : generate_prefixed_filename "b_two.png" "lakehous-8b75df" none none
    = "lakehous-8b75df-btwo.png" := by decide
example : generate_prefixed_filename "3.jpg" "lakehous-8b75df" none none
    = "lakehous-8b75df.jpg" := by decide
example : generate_prefixed_filename "123" "" none none = "" := by decide
example : generate_prefixed_filename "IMG_1234.jpg" "p" (some 7) none
    = "p-007-IMG1234.jpg" := by decide
example : generate_prefixed_filename "IMG_1234.jpg" "p" none (some "kitchen")
    = "p-kitchen-IMG1234.jpg" := by decide

/-! ## String and join lemmas -/

theorem strExt {s t : String} (h : s.data = t.data) : s = t := by
  cases s; cases t; exact congrArg String.mk h

theorem strData_append (s t : String) : (s ++ t).data = s.data ++ t.data := rfl

theorem strAppend_assoc (s t u : String) : s ++ t ++ u = s ++ (t ++ u) :=
  strExt (by simp [strData_append])

theorem strAppend_empty (s : String) : s ++ "" = s :=
  strExt (by simp [strData_append])

theorem joinHyphen_cons (rest : List String) :
    ∀ p, joinHyphen (p :: rest) = p ++ segs rest := by
  induction rest with
  | nil => intro p; simp [joinHyphen, segs, strAppend_empty]
  | cons x xs ih =>
    intro p
    show p ++ "-" ++ joinHyphen (x :: xs) = p ++ segs (x :: xs)
    rw [ih x]
    show p ++ "-" ++ (x ++ segs xs) = p ++ ("-" ++ x ++ segs xs)
    simp [strAppend_assoc]

theorem segs_append (as bs : List String) :
    segs (as ++ bs) = segs as ++ segs bs := by
  induction as with
  | nil =>
    show segs bs = "" ++ segs bs
    exact strExt (by simp [strData_append])
  | cons x xs ih =>
    show "-" ++ x ++ segs (xs ++ bs) = "-" ++ x ++ segs xs ++ segs bs
    rw [ih]; simp [strAppend_assoc]

theorem segs_nil : segs [] = "" := rfl

theorem segs_single (x : String) : segs [x] = "-" ++ x := by
  show "-" ++ x ++ segs [] = "-" ++ x
  show "-" ++ x ++ "" = "-" ++ x
  simp [strAppend_empty]

/-- The generated filename laid out as prefix, hyphen-prefixed segments, and
the original extension. -/
theorem gpf_shape (original pfx : String) (counter : Option Nat)
    (room_type : Option String) :
    generate_prefixed_filename original pfx counter room_type
      = pfx ++ (segs (roomPart room_type) ++ segs (counterPart counter) ++
          segs (stemPart original)) ++ (splitext original).2 := by
  unfold generate_prefixed_filename
  rw [show ([pfx] ++ roomPart room_type ++ counterPart counter ++
        stemPart original)
      = pfx :: (roomPart room_type ++ counterPart counter ++
        stemPart original) by simp]
  rw [joinHyphen_cons, segs_append, segs_append]

theorem digitChar_inj : ∀ a, a < 10 → ∀ b, b < 10 →
    digitChar a = digitChar b → a = b := by decide

theorem digitChar_isDigit : ∀ d, d < 10 → (digitChar d).isDigit = true := by
  decide

theorem natDigitsAux_fuel : ∀ fuel fuel2 n, n < fuel → n < fuel2 →
    natDigitsAux fuel n = natDigitsAux fuel2 n := by
  intro fuel
  induction fuel with
  | zero => intro fuel2 n h _; exact absurd h (Nat.not_lt_zero n)
  | succ fuel ih =>
    intro fuel2 n h1 h2
    cases fuel2 with
    | zero => exact absurd h2 (Nat.not_lt_zero n)
    | succ fuel2 =>
      by_cases h10 : n < 10
      · simp [natDigitsAux, h10]
      · simp only [natDigitsAux, if_neg h10]
        have hd : n / 10 < n := Nat.div_lt_self (by omega) (by omega)
        rw [ih fuel2 (n / 10) (by omega) (by omega)]

theorem natDigits_small {n : Nat} (h : n < 10) :
    natDigits n = [digitChar n] := by
  simp [natDigits, natDigitsAux, h]

theorem natDigits_step {n : Nat} (h : 10 ≤ n) :
    natDigits n = natDigits (n / 10) ++ [digitChar (n % 10)] := by
  have hlt : n / 10 < n := Nat.div_lt_self (by omega) (by omega)
  show natDigitsAux (n + 1) n = _
  have h10 : ¬ n < 10 := by omega
  simp only [natDigitsAux, if_neg h10]
  rw [natDigitsAux_fuel n (n / 10 + 1) (n / 10) hlt (Nat.lt_succ_self _)]
  rfl

theorem natDigits_ne_nil (n : Nat) : natDigits n ≠ [] := by
  by_cases h : n < 10
  · rw [natDigits_small h]; simp
  · rw [natDigits_step (by omega)]; simp

theorem natDigits_all_digits : ∀ n, ∀ c ∈ natDigits n, c.isDigit = true := by
  intro n
  induction n using Nat.strong_induction_on with
  | _ n ih =>
    by_cases h : n < 10
    · rw [natDigits_small h]
      intro c hc
      simp at hc
      exact hc ▸ digitChar_isDigit n h
    · rw [natDigits_step (by omega)]
      intro c hc
      rcases List.mem_append.mp hc with h1 | h2
      · exact ih (n / 10) (Nat.div_lt_self (by omega) (by omega)) c h1
      · simp at h2
        exact h2 ▸ digitChar_isDigit (n % 10) (by omega)

theorem natDigits_inj : ∀ n m, natDigits n = natDigits m → n = m := by
  intro n
  induction n using Nat.strong_induction_on with
  | _ n ih =>
    intro m h
    by_cases hn : n < 10 <;> by_cases hm : m < 10
    · rw [natDigits_small hn, natDigits_small hm] at h
      injection h with h1 _
      exact digitChar_inj n hn m hm h1
    · rw [natDigits_small hn, natDigits_step (show 10 ≤ m by omega)] at h
      have hlen := congrArg List.length h
      simp only [List.length_append, List.length_cons, List.length_nil]
        at hlen
      have h0 : natDigits (m / 10) = [] :=
        List.length_eq_zero.mp (by omega)
      exact absurd h0 (natDigits_ne_nil _)
    · rw [natDigits_step (show 10 ≤ n by omega), natDigits_small hm] at h
      have hlen := congrArg List.length h
      simp only [List.length_append, List.length_cons, List.length_nil]
        at hlen
      have h0 : natDigits (n / 10) = [] :=
        List.length_eq_zero.mp (by omega)
      exact absurd h0 (natDigits_ne_nil _)
    · rw [natDigits_step (show 10 ≤ n by omega),
        natDigits_step (show 10 ≤ m by omega)] at h
      obtain ⟨hq, hr⟩ := List.append_inj' h (by simp)
      have e1 : n / 10 = m / 10 :=
        ih (n / 10) (Nat.div_lt_self (by omega) (by omega)) (m / 10) hq
      injection hr with hr1 _
      have e2 : n % 10 = m % 10 :=
        digitChar_inj _ (by omega) _ (by omega) hr1
      omega

theorem natDigits_len4 (n : Nat) (h : 1000 ≤ n) :
    4 ≤ (natDigits n).length := by
  have hpos : 0 < (natDigits (n / 10 / 10 / 10)).length :=
    List.length_pos.mpr (natDigits_ne_nil _)
  rw [natDigits_step (show 10 ≤ n by omega),
    natDigits_step (show 10 ≤ n / 10 by omega),
    natDigits_step (show 10 ≤ n / 10 / 10 by omega)]
  simp [List.length_append]
  omega

/-- Every character of a formatted counter is a decimal digit. -/
theorem pad3_digits : ∀ c, ∀ ch ∈ (pad3 c).data, ch.isDigit = true := by
  intro c ch hch
  by_cases h : c < 1000
  · simp [pad3, h] at hch
    rcases hch with h1 | h1 | h1 <;>
      exact h1 ▸ digitChar_isDigit _ (by omega)
  · simp [pad3, h] at hch
    exact natDigits_all_digits c ch hch

/-- Python three-digit zero padding is globally injective: distinct counters
format to distinct strings, whatever their size. -/
theorem pad3_inj {c1 c2 : Nat} (h : (pad3 c1).data = (pad3 c2).data) :
    c1 = c2 := by
  by_cases h1 : c1 < 1000 <;> by_cases h2 : c2 < 1000
  · simp only [pad3, if_pos h1, if_pos h2] at h
    injection h with q1 h
    injection h with q2 h
    injection h with q3 h
    have d1 := digitChar_inj _ (by omega) _ (by omega) q1
    have d2 := digitChar_inj _ (by omega) _ (by omega) q2
    have d3 := digitChar_inj _ (by omega) _ (by omega) q3
    omega
  · simp only [pad3, if_pos h1, if_neg h2] at h
    have hlen := congrArg List.length h
    simp at hlen
    have := natDigits_len4 c2 (by omega)
    omega
  · simp only [pad3, if_neg h1, if_pos h2] at h
    have hlen := congrArg List.length h
    simp at hlen
    have := natDigits_len4 c1 (by omega)
    omega
  · simp only [pad3, if_neg h1, if_neg h2] at h
    exact natDigits_inj c1 c2 h

/-- Cancellation of all-digit runs: when two digit runs are each followed by
a tail that is empty or starts with a non-digit, equal concatenations force
equal runs. -/
theorem digits_prefix_cancel :
    ∀ (as bs t1 t2 : List Char),
      (∀ c ∈ as, c.isDigit = true) → (∀ c ∈ bs, c.isDigit = true) →
      (∀ c, t1.head? = some c → c.isDigit = false) →
      (∀ c, t2.head? = some c → c.isDigit = false) →
      as ++ t1 = bs ++ t2 → as = bs := by
  intro as
  induction as with
  | nil =>
    intro bs t1 t2 _ hbs ht1 _ h
    cases bs with
    | nil => rfl
    | cons b bs2 =>
      simp only [List.nil_append, List.cons_append] at h
      have hb : t1.head? = some b := by rw [h]; rfl
      have hf := ht1 b hb
      have hd : b.isDigit = true := hbs b (by simp)
      simp [hd] at hf
  | cons a as2 ih =>
    intro bs t1 t2 has hbs ht1 ht2 h
    cases bs with
    | nil =>
      simp only [List.nil_append, List.cons_append] at h
      have hb : t2.head? = some a := by rw [← h]; rfl
      have hf := ht2 a hb
      have hd : a.isDigit = true := has a (by simp)
      simp [hd] at hf
    | cons b bs2 =>
      simp only [List.cons_append] at h
      injection h with h1 h2
      have hrest := ih bs2 t1 t2 (fun c hc => has c (List.mem_cons_of_mem a hc))
        (fun c hc => hbs c (List.mem_cons_of_mem b hc)) ht1 ht2 h2
      rw [h1, hrest]

theorem head?_drop_eq (cs : List Char) : ∀ j, (cs.drop j).head? = cs.get? j := by
  induction cs with
  | nil => intro j; cases j <;> rfl
  | cons c cs2 ih =>
    intro j
    cases j with
    | zero => rfl
    | succ j => exact ih j

theorem getD_eq_get? (cs : List Char) : ∀ j d, cs.getD j d = (cs.get? j).getD d := by
  induction cs with
  | nil => intro j d; cases j <;> rfl
  | cons c cs2 ih =>
    intro j d
    cases j with
    | zero => rfl
    | succ j => exact ih j d

theorem foldl_dot_spec (cs : List Char) :
    ∀ (is : List Nat) (acc : Option Nat),
      (∀ j, acc = some j → cs.getD j ' ' = '.') →
      ∀ j, is.foldl (fun acc i => if cs.getD i ' ' = '.' then some i else acc)
          acc = some j → cs.getD j ' ' = '.' := by
  intro is
  induction is with
  | nil => intro acc hacc j h; exact hacc j h
  | cons i is2 ih =>
    intro acc hacc j h
    refine ih _ ?_ j h
    intro j2 hj2
    have hj3 : (if cs.getD i ' ' = '.' then some i else acc) = some j2 := hj2
    by_cases hc : cs.getD i ' ' = '.'
    · rw [if_pos hc] at hj3
      injection hj3 with h1
      exact h1 ▸ hc
    · rw [if_neg hc] at hj3
      exact hacc j2 hj3

/-- The index returned by `lastDotIdx` points at a dot. -/
theorem lastDotIdx_spec (cs : List Char) (i : Nat)
    (h : lastDotIdx cs = some i) : cs.getD i ' ' = '.' :=
  foldl_dot_spec cs (List.range cs.length) none
    (fun _ hj => Option.noConfusion hj) i h

/-- The extension computed by `splitext` is empty or starts with a dot. -/
theorem ext_empty_or_dot (s : String) :
    (splitext s).2 = "" ∨ (splitext s).2.data.head? = some '.' := by
  rcases hL : lastDotIdx s.data with - | i
  · left; simp [splitext, hL]
  · by_cases hnb : hasNonDotBefore s.data i = true
    · right
      simp only [splitext, hL, hnb, if_true]
      show (s.data.drop i).head? = some '.'
      rw [head?_drop_eq]
      have hdot := lastDotIdx_spec s.data i hL
      rw [getD_eq_get?] at hdot
      cases hg : s.data.get? i with
      | none =>
        rw [hg] at hdot
        exact absurd hdot (by decide)
      | some ch =>
        rw [hg] at hdot
        simp at hdot
        rw [hdot]
    · left; simp [splitext, hL, hnb]

theorem stemPart_cases (o : String) : stemPart o = [] ∨ ∃ c, stemPart o = [c] := by
  unfold stemPart
  by_cases h : (!(removeSeparators (splitext o).1).data.isEmpty &&
      !pyIsDigit (removeSeparators (splitext o).1)) = true
  · right; exact ⟨_, if_pos h⟩
  · left; exact if_neg h

/-- What follows the counter segment in a generated filename — the optional
hyphenated stem and the extension — is empty or starts with a non-digit. -/
theorem tail_head_nondigit (o : String) :
    ∀ ch, ((segs (stemPart o) ++ (splitext o).2).data).head? = some ch →
      ch.isDigit = false := by
  intro ch hch
  rcases stemPart_cases o with hs | ⟨cl, hs⟩
  · rw [hs, segs_nil] at hch
    have hch2 : (splitext o).2.data.head? = some ch := by
      have hdat : ("" ++ (splitext o).2).data = (splitext o).2.data := by
        simp [strData_append]
      rwa [hdat] at hch
    rcases ext_empty_or_dot o with he | he
    · rw [he] at hch2
      simp [show ("" : String).data = [] from rfl] at hch2
    · rw [he] at hch2
      injection hch2 with h1
      rw [← h1]; decide
  · rw [hs, segs_single] at hch
    have hdat : (("-" ++ cl) ++ (splitext o).2).data
        = '-' :: (cl.data ++ (splitext o).2.data) := by
      simp [strData_append, show ("-" : String).data = ['-'] from rfl]
    rw [hdat] at hch
    injection hch with h1
    rw [← h1]; decide

theorem segs_roomPart (rt : Option String) :
    segs (roomPart rt)
      = match rt with
        | some r => if r.data.isEmpty then "" else "-" ++ r
        | none => "" := by
  cases rt with
  | none => rfl
  | some r => cases h : r.data.isEmpty <;> simp [roomPart, h, segs_single,
      segs_nil]

theorem segs_counterPart (c : Option Nat) :
    segs (counterPart c)
      = match c with
        | some c => "-" ++ pad3 c
        | none => "" := by
  cases c <;> simp [counterPart, segs_single, segs_nil]

theorem segs_stemPart (o : String) :
    segs (stemPart o)
      = (if (removeSeparators (splitext o).1).data.isEmpty
            || pyIsDigit (removeSeparators (splitext o).1) then ""
         else "-" ++ removeSeparators (splitext o).1) := by
  unfold stemPart
  cases ha : (removeSeparators (splitext o).1).data.isEmpty <;>
    cases hb : pyIsDigit (removeSeparators (splitext o).1) <;>
      simp [ha, hb, segs_single, segs_nil]

/-- C4 (part of the amended claim): the generated filename is exactly the
spec's layout `prefix[-roomType][-counter:03d][-cleanedOriginalStem]` plus the
original extension, and it always carries the original extension as a suffix;
it is nonempty whenever the prefix or the original extension is nonempty
(the claim's unconditional nonemptiness fails, see the counterexample). -/
theorem c4_filename_construction (original pfx : String) (counter : Option Nat)
    (room_type : Option String) :
    generate_prefixed_filename original pfx counter room_type
      = specFilename original pfx counter room_type
    ∧ (∃ s, generate_prefixed_filename original pfx counter room_type
        = s ++ (splitext original).2)
    ∧ ((pfx ≠ "" ∨ (splitext original).2 ≠ "") →
        generate_prefixed_filename original pfx counter room_type ≠ "") := by
  refine ⟨?_, ⟨_, gpf_shape original pfx counter room_type⟩, ?_⟩
  · rw [gpf_shape, segs_roomPart, segs_counterPart, segs_stemPart]
    unfold specFilename
    simp [strAppend_assoc]
  · intro hor heq
    rw [gpf_shape] at heq
    have hd : (pfx.data ++ (segs (roomPart room_type) ++
          segs (counterPart counter) ++ segs (stemPart original)).data) ++
          (splitext original).2.data = [] := by
      have h0 := congrArg String.data heq
      simpa [strData_append] using h0
    rcases List.append_eq_nil.mp hd with ⟨h1, h2⟩
    rcases List.append_eq_nil.mp h1 with ⟨hp, -⟩
    cases hor with
    | inl h => exact h (strExt hp)
    | inr h => exact h (strExt h2)

/-- C4 counterexample: the claim's "the result is never the empty string"
fails as stated — with an empty prefix, a purely numeric stem and no
extension, the generated filename is empty. -/
theorem c4_counterexample : generate_prefixed_filename "123" "" none none
    = "" := by decide

/-- Witness for C4 at a concrete input. -/
theorem c4_witness : generate_prefixed_filename "photo.jpg" "shoot-ab12cd"
    none none ≠ "" :=
  (c4_filename_construction "photo.jpg" "shoot-ab12cd" none none).2.2
    (Or.inl (by decide))

/-- C3 counterexample: two distinct source filenames whose stems clean to the
same string receive the same target filename, so the generated filenames of
one shoot are not pairwise distinct and the pipeline prepares both records
into the same temporary file. -/
theorem c3_counterexample :
    ("a_b.jpg" : String) ≠ "ab.jpg"
    ∧ generate_prefixed_filename "a_b.jpg" "p" none none
      = generate_prefixed_filename "ab.jpg" "p" none none := by
  decide

/-- C3 (amended): with sequential numbering enabled, distinct sequence
numbers always yield distinct target filenames, for any original filenames
and any shared shoot prefix — the counter segment is an all-digit run whose
delimiter (hyphen, dot or end of name) is never a digit, and three-digit
zero padding is globally injective. -/
theorem c3_sequential_filenames_distinct (o1 o2 pfx : String) {c1 c2 : Nat}
    (hne : c1 ≠ c2) :
    generate_prefixed_filename o1 pfx (some c1) none
      ≠ generate_prefixed_filename o2 pfx (some c2) none := by
  intro heq
  rw [gpf_shape, gpf_shape] at heq
  simp only [roomPart, counterPart, segs_single] at heq
  have hd := congrArg String.data heq
  simp only [strData_append, show ("" : String).data = [] from rfl,
    show ("-" : String).data = ['-'] from rfl, show segs [] = "" from rfl,
    List.nil_append, List.append_assoc, List.cons_append] at hd
  have h3 := List.append_cancel_left hd
  injection h3 with hhead h4
  have ht1 : ∀ ch, ((segs (stemPart o1)).data ++
      (splitext o1).2.data).head? = some ch → ch.isDigit = false := by
    intro ch hch
    exact tail_head_nondigit o1 ch (by rw [strData_append]; exact hch)
  have ht2 : ∀ ch, ((segs (stemPart o2)).data ++
      (splitext o2).2.data).head? = some ch → ch.isDigit = false := by
    intro ch hch
    exact tail_head_nondigit o2 ch (by rw [strData_append]; exact hch)
  have hpads := digits_prefix_cancel (pad3 c1).data (pad3 c2).data _ _
    (pad3_digits c1) (pad3_digits c2) ht1 ht2 h4
  exact hne (pad3_inj hpads)

/-- Witness for C3's amended theorem at a concrete input. -/
theorem c3_witness :
    generate_prefixed_filename "a.jpg" "p" (some 1) none
      ≠ generate_prefixed_filename "b.jpg" "p" (some 2) none :=
  c3_sequential_filenames_distinct "a.jpg" "b.jpg" "p" (by decide)

/-- C5 (amended): for shoot id `lakehouse` under the hash method the prefix is
`lakehous-8b75df` (first 8 characters of the shoot id, hyphen, first 6 hex
characters of its MD5), and the three originals map to
`lakehous-8b75df-A.JPG` (case preserved, contrary to the claim's
`lakehous-<6hex>-a.jpg`), `lakehous-8b75df-btwo.png`, and
`lakehous-8b75df.jpg` (the purely numeric stem `3` dropped). -/
theorem c5_lakehouse_scenario :
    generate_unique_prefix "lakehouse" "hash" = "lakehous-8b75df"
    ∧ pyTake (md5hex "lakehouse") 6 = "8b75df"
    ∧ generate_prefixed_filename "A.JPG"
        ( generate_unique_prefix "lakehouse" "hash") none none
      = "lakehous-8b75df-A.JPG"
    ∧ generate_prefixed_filename "b_two.png"
        ( generate_unique_prefix "lakehouse" "hash") none none
      = "lakehous-8b75df-btwo.png"
    ∧ generate_prefixed_filename "3.jpg"
        ( generate_unique_prefix "lakehouse" "hash") none none
      = "lakehous-8b75df.jpg" := by
  refine ⟨?_, ?_, ?_, ?_, ?_⟩ <;> decide

/-- C5 counterexample: the code does not lower-case the stem, so `A.JPG` does
not map to `lakehous-<6hex>-a.jpg` (where `<6hex>` is the actual 6-hex MD5
prefix of `lakehouse`): the claimed filename differs from the generated one. -/
theorem c5_counterexample :
    generate_prefixed_filename "A.JPG"
        ( generate_unique_prefix "lakehouse" "hash") none none
      ≠ "lakehous-" ++ pyTake (md5hex "lakehouse") 6 ++ "-a.jpg" := by
  decide

/-- The transcoder always terminates in one of exactly two observable ways:
a verbatim copy reported not-succeeded, or a JPEG re-encode at the requested
quality reported succeeded. -/
theorem downsample_dichotomy (env : PilEnv) (w h q : Nat) :
    downsample_image env w h q = ⟨.verbatimCopy, false⟩
    ∨ ∃ m rr, downsample_image env w h q = ⟨.jpeg m rr q, true⟩ := by
  rcases env with ⟨pil, openR, rz, sv⟩
  cases pil
  · left; simp [downsample_image]
  · cases openR with
    | error e => left; simp [downsample_image]
    | ok img =>
      by_cases hm : img.mode = .RGBA ∨ img.mode = .LA ∨ img.mode = .P <;>
        by_cases hb : img.width ≤ w ∧ img.height ≤ h <;>
          cases rz <;> cases sv <;>
            first
              | (left; simp [downsample_image, hm, hb]; done)
              | (right; exact ⟨_, _, by
                  simp [downsample_image, hm, hb]; exact ⟨rfl, rfl⟩⟩)

/-- C6: transcoder contract. Capability absence yields a verbatim copy and
not-succeeded; not-succeeded always means the bytes were copied verbatim
(so no processing exception ever escapes); with PIL present and no raise,
the output is a JPEG at the requested quality, alpha/palette modes converted
to RGB, unresized when within bounds and otherwise resized by the single
ratio `min(maxWidth/width, maxHeight/height)`; open failures and raises
during processing yield a verbatim copy and not-succeeded. -/
theorem c6_transcoder_contract (env : PilEnv) (max_width max_height
    quality : Nat) :
    (env.pil_available = false →
      downsample_image env max_width max_height quality
        = ⟨.verbatimCopy, false⟩)
    ∧ ((downsample_image env max_width max_height quality).succeeded = false →
        (downsample_image env max_width max_height quality).out
          = .verbatimCopy)
    ∧ (∀ img, env.pil_available = true → env.openResult = .ok img →
        env.saveRaises = none → env.resizeRaises = none →
        downsample_image env max_width max_height quality =
          ⟨.jpeg
            (if img.mode = .RGBA ∨ img.mode = .LA ∨ img.mode = .P then .RGB
             else img.mode)
            (if img.width ≤ max_width ∧ img.height ≤ max_height then none
             else some (min ((max_width : ℚ) / img.width)
               ((max_height : ℚ) / img.height)))
            quality, true⟩)
    ∧ (∀ e, env.pil_available = true → env.openResult = .error e →
        downsample_image env max_width max_height quality
          = ⟨.verbatimCopy, false⟩)
    ∧ (∀ img, env.pil_available = true → env.openResult = .ok img →
        (env.saveRaises ≠ none
          ∨ (¬(img.width ≤ max_width ∧ img.height ≤ max_height)
              ∧ env.resizeRaises ≠ none)) →
        downsample_image env max_width max_height quality
          = ⟨.verbatimCopy, false⟩) := by
  rcases env with ⟨pil, openR, rz, sv⟩
  refine ⟨?_, ?_, ?_, ?_, ?_⟩
  · intro hp; subst hp; simp [downsample_image]
  · intro hfail
    rcases downsample_dichotomy ⟨pil, openR, rz, sv⟩ max_width max_height
        quality with hv | ⟨m, rr, hj⟩
    · rw [hv]
    · rw [hj] at hfail; simp at hfail
  · intro img hp hopen hsv hrz
    subst hp; subst hsv; subst hrz
    rw [show openR = .ok img from hopen]
    by_cases hm : img.mode = .RGBA ∨ img.mode = .LA ∨ img.mode = .P <;>
      by_cases hb : img.width ≤ max_width ∧ img.height ≤ max_height <;>
        simp [downsample_image, hm, hb]
  · intro e hp hopen
    subst hp; rw [show openR = .error e from hopen]
    simp [downsample_image]
  · intro img hp hopen hraise
    subst hp; rw [show openR = .ok img from hopen]
    rcases hraise with hsv | ⟨hb, hrz⟩
    · rcases hs : sv with - | msg
      · exact absurd hs hsv
      · by_cases hm : img.mode = .RGBA ∨ img.mode = .LA ∨ img.mode = .P <;>
          by_cases hb : img.width ≤ max_width ∧ img.height ≤ max_height <;>
            cases rz <;> simp [downsample_image, hm, hb]
    · rcases hr : rz with - | msg
      · exact absurd hr hrz
      · by_cases hm : img.mode = .RGBA ∨ img.mode = .LA ∨ img.mode = .P <;>
          simp [downsample_image, hm, hb]

/-- Witness for C6 at a concrete input: PIL absent. -/
theorem c6_witness :
    downsample_image ⟨false, Except.error "no-pil", none, none⟩ 1920 1080 85
      = ⟨.verbatimCopy, false⟩ :=
  (c6_transcoder_contract ⟨false, Except.error "no-pil", none, none⟩
    1920 1080 85).1 rfl

theorem classifyLoop_calls_le (outcome : Nat → ApiOutcome) :
    ∀ r i, (classifyLoop outcome i r).2 ≤ i + r := by
  intro r
  induction r with
  | zero => intro i; simp [classifyLoop]
  | succ r ih =>
    intro i
    unfold classifyLoop
    cases outcome i with
    | ok content =>
      by_cases hv : normalizeResp content ∈ valid_types
      · simp [hv]
      · simp [hv]
        have := ih (i + 1)
        omega
    | raises msg =>
      by_cases hr : 0 < r
      · simp [hr]
        have := ih (i + 1)
        omega
      · simp [hr]

theorem classifyLoop_exhaust_none (outcome : Nat → ApiOutcome) :
    ∀ r i,
      (∀ j, i ≤ j → j < i + r → ∀ c, outcome j = .ok c →
        valid_types.contains (normalizeResp c) = false) →
      (classifyLoop outcome i r).1 = none := by
  intro r
  induction r with
  | zero => intro i _; simp [classifyLoop]
  | succ r ih =>
    intro i h
    unfold classifyLoop
    cases ho : outcome i with
    | ok content =>
      have hv := h i (Nat.le_refl i) (by omega) content ho
      have hv2 : normalizeResp content ∉ valid_types := by simpa using hv
      simp [hv2]
      exact ih (i + 1) (fun j hj1 hj2 c hc => h j (by omega) (by omega) c hc)
    | raises msg =>
      by_cases hr : 0 < r
      · simp [hr]
        exact ih (i + 1) (fun j hj1 hj2 c hc => h j (by omega) (by omega) c hc)
      · simp [hr]

/-- The retry loop stops at the first in-vocabulary answer and returns it:
if the attempts before index `k` are raises or out-of-vocabulary answers and
attempt `k` answers inside the vocabulary, the loop returns that normalized
answer after exactly `k + 1` calls. -/
theorem classifyLoop_first_valid (outcome : Nat → ApiOutcome) :
    ∀ r k i c, k < r →
      (∀ j, j < k → ∀ c2, outcome (i + j) = ApiOutcome.ok c2 →
        valid_types.contains (normalizeResp c2) = false) →
      outcome (i + k) = ApiOutcome.ok c →
      valid_types.contains (normalizeResp c) = true →
      classifyLoop outcome i r = (some (normalizeResp c), i + k + 1) := by
  intro r
  induction r with
  | zero => intro k i c hk; exact absurd hk (Nat.not_lt_zero k)
  | succ r ih =>
    intro k i c hk hprev hok hval
    cases k with
    | zero =>
      have hok2 : outcome i = ApiOutcome.ok c := hok
      have hval2 : normalizeResp c ∈ valid_types := by simpa using hval
      unfold classifyLoop
      rw [hok2]
      simp [hval2]
    | succ k2 =>
      have hr : 0 < r := by omega
      have hrec := ih k2 (i + 1) c (by omega)
        (fun j hj c3 hc3 => hprev (j + 1) (by omega) c3
          (by rw [show i + (j + 1) = i + 1 + j from by omega]; exact hc3))
        (by rw [show i + 1 + k2 = i + (k2 + 1) from by omega]; exact hok)
        hval
      unfold classifyLoop
      cases ho : outcome i with
      | ok c2 =>
        have hinv := hprev 0 (by omega) c2 ho
        show (if valid_types.contains (normalizeResp c2) = true
            then (some (normalizeResp c2), i + 1)
            else classifyLoop outcome (i + 1) r)
          = (some (normalizeResp c), i + (k2 + 1) + 1)
        rw [hinv, if_neg Bool.false_ne_true, hrec]
        exact congrArg (fun t => (some (normalizeResp c), t)) (by omega)
      | raises msg =>
        show (if 0 < r then classifyLoop outcome (i + 1) r else (none, i + 1))
          = (some (normalizeResp c), i + (k2 + 1) + 1)
        rw [if_pos hr, hrec]
        exact congrArg (fun t => (some (normalizeResp c), t)) (by omega)

/-- C7: classifier bounded retries and capability gate. At most 3 API calls
are ever made; a missing client library or missing credential short-circuits
to `None` with zero API calls; a raise while reading the image yields `None`
with zero API calls; when every attempt either raises or answers outside
the 18-label vocabulary, the final result is `None`; and the first
in-vocabulary answer (preceded only by raises or out-of-vocabulary answers)
ends the loop — it is returned, normalized, after exactly that many calls,
so the classifier retries only on failed calls or invalid answers. -/
theorem c7_classifier_bounded_retries (openai_available : Bool)
    (api_key : Option String) (file_read_ok : Bool)
    (outcome : Nat → ApiOutcome) :
    ((classify_image_with_ai openai_available api_key file_read_ok
        outcome 3).2 ≤ 3)
    ∧ (openai_available = false →
        classify_image_with_ai openai_available api_key file_read_ok outcome 3
          = (none, 0))
    ∧ (api_key = none →
        classify_image_with_ai openai_available api_key file_read_ok outcome 3
          = (none, 0))
    ∧ (file_read_ok = false →
        classify_image_with_ai openai_available api_key file_read_ok outcome 3
          = (none, 0))
    ∧ ((∀ j, j < 3 → ∀ c, outcome j = .ok c →
          valid_types.contains (normalizeResp c) = false) →
        (classify_image_with_ai openai_available api_key file_read_ok
          outcome 3).1 = none)
    ∧ (∀ i c, i < 3 →
        (∀ j, j < i → ∀ c2, outcome j = ApiOutcome.ok c2 →
          valid_types.contains (normalizeResp c2) = false) →
        outcome i = ApiOutcome.ok c →
        valid_types.contains (normalizeResp c) = true →
        openai_available = true → api_key ≠ none → file_read_ok = true →
        classify_image_with_ai openai_available api_key file_read_ok outcome 3
          = (some (normalizeResp c), i + 1)) := by
  refine ⟨?_, ?_, ?_, ?_, ?_, ?_⟩
  · cases openai_available
    · simp [classify_image_with_ai]
    · cases api_key with
      | none => simp [classify_image_with_ai]
      | some k =>
        cases file_read_ok
        · simp [classify_image_with_ai]
        · simpa [classify_image_with_ai] using
            classifyLoop_calls_le outcome 3 0
  · intro h; subst h; simp [classify_image_with_ai]
  · intro h; subst h
    cases openai_available <;> simp [classify_image_with_ai]
  · intro h; subst h
    cases openai_available <;> cases api_key <;>
      simp [classify_image_with_ai]
  · intro h
    cases openai_available
    · simp [classify_image_with_ai]
    · cases api_key with
      | none => simp [classify_image_with_ai]
      | some k =>
        cases file_read_ok
        · simp [classify_image_with_ai]
        · simpa [classify_image_with_ai] using
            classifyLoop_exhaust_none outcome 3 0
              (fun j hj1 hj2 c hc => h j (by omega) c hc)
  · intro i c hi hprev hok hval hav hkey hread
    subst hav; subst hread
    cases api_key with
    | none => exact absurd rfl hkey
    | some k =>
      have hmain := classifyLoop_first_valid outcome 3 i 0 c hi
        (fun j hj c2 hc2 => hprev j hj c2
          (by rw [show j = 0 + j from by omega]; exact hc2))
        (by rw [show (0 : Nat) + i = i from by omega]; exact hok) hval
      show classifyLoop outcome 0 3 = _
      rw [hmain]
      exact congrArg (fun t => (some (normalizeResp c), t)) (by omega)

/-- Witness for C7 at concrete inputs: with capabilities present and the
model answering ` Kitchen` on the first attempt, the classifier returns the
normalized in-vocabulary answer after exactly one API call; with the client
library absent it returns `None` with zero calls. -/
theorem c7_witness :
    classify_image_with_ai true (some "key") true
        (fun _ => ApiOutcome.ok " Kitchen") 3
      = (some "kitchen", 1)
    ∧ classify_image_with_ai false none true
        (fun _ => ApiOutcome.raises "e") 3 = (none, 0) := by
  constructor
  · have h := (c7_classifier_bounded_retries true (some "key") true
      (fun _ => ApiOutcome.ok " Kitchen")).2.2.2.2.2 0 " Kitchen" (by decide)
      (fun j hj c2 _ => absurd hj (Nat.not_lt_zero j))
      rfl (by decide) rfl (by simp) rfl
    rw [h]
    decide
  · exact (c7_classifier_bounded_retries false none true
      (fun _ => ApiOutcome.raises "e")).2.1 rfl

/-- C1 counterexample: with downsampling enabled (the default), a source
image whose generated target filename does not end in `.jpg` is uploaded
under a rewritten `.jpg` key, so on the second run over the unchanged inputs
its generated filename is still absent from the store and it is partitioned
into `toUpload` again — the second run's `toUpload` is not empty. -/
theorem c1_counterexample :
    storeAfterRun [⟨"p-btwo.png", "b_two.png"⟩] [] false false
      = ["p-btwo.jpg"]
    ∧ (partitionPhotos [⟨"p-btwo.png", "b_two.png"⟩]
        (storeAfterRun [⟨"p-btwo.png", "b_two.png"⟩] [] false false)
        false).1 = [⟨"p-btwo.png", "b_two.png"⟩] := by
  decide

/-- C1 (amended): for a non-force run in which the upload stage does not
rewrite any generated filename (downsampling disabled, or every generated
filename already carrying a `.jpg` extension) and without AI classification,
re-running on the unchanged inputs partitions every image into `skipped` and
leaves `toUpload` empty, so the second run uploads nothing. -/
theorem c1_idempotent_second_run (photo_urls : List PhotoData)
    (existing_assets : List String) (no_downsample : Bool)
    (hfix : ∀ p ∈ photo_urls,
      finalUploadName no_downsample p.filename = p.filename) :
    (partitionPhotos photo_urls
        (storeAfterRun photo_urls existing_assets false no_downsample)
        false).1 = []
    ∧ (partitionPhotos photo_urls
        (storeAfterRun photo_urls existing_assets false no_downsample)
        false).2.1 = photo_urls.map (·.filename)
    ∧ runUploadedNames photo_urls
        (storeAfterRun photo_urls existing_assets false no_downsample)
        false no_downsample = [] := by
  have hmem : ∀ p ∈ photo_urls, p.filename ∈
      storeAfterRun photo_urls existing_assets false no_downsample := by
    intro p hp
    unfold storeAfterRun runUploadedNames
    by_cases he : p.filename ∈ existing_assets
    · exact List.mem_append_left _ he
    · refine List.mem_append_right _ ?_
      refine List.mem_map.mpr ⟨p, ?_, hfix p hp⟩
      simp [partitionPhotos, List.mem_filter, hp, he]
  have h1 : (partitionPhotos photo_urls
      (storeAfterRun photo_urls existing_assets false no_downsample)
      false).1 = [] := by
    simp only [partitionPhotos, if_neg (Bool.false_ne_true)]
    refine List.filter_eq_nil_iff.mpr ?_
    intro p hp
    simp [hmem p hp]
  refine ⟨h1, ?_, ?_⟩
  · simp only [partitionPhotos, if_neg (Bool.false_ne_true)]
    rw [List.filter_eq_self.mpr (fun p hp => by simp [hmem p hp])]
  · unfold runUploadedNames
    rw [h1]
    rfl

/-- Witness for C1's amended theorem at a concrete input. -/
theorem c1_witness :
    (partitionPhotos [⟨"p-a.jpg", "a.jpg"⟩]
        (storeAfterRun [⟨"p-a.jpg", "a.jpg"⟩] [] false true) false).1 = []
    ∧ (partitionPhotos [⟨"p-a.jpg", "a.jpg"⟩]
        (storeAfterRun [⟨"p-a.jpg", "a.jpg"⟩] [] false true) false).2.1
      = ["p-a.jpg"]
    ∧ runUploadedNames [⟨"p-a.jpg", "a.jpg"⟩]
        (storeAfterRun [⟨"p-a.jpg", "a.jpg"⟩] [] false true) false true
      = [] :=
  c1_idempotent_second_run [⟨"p-a.jpg", "a.jpg"⟩] [] true (by decide)

/-- C9 counterexample: in the S3 backend, a target key already present in
the store is not scheduled for deletion in force-reupload mode — the
scheduled deletions are empty, contradicting the claim that every present
target key is deleted before upload. -/
theorem c9_counterexample :
    s3Key "shoot" "k.jpg" ∈ (["shoot/k.jpg"] : List String)
    ∧ (s3ForceRun [⟨"k.jpg", "orig.jpg"⟩]).2 = [] := by
  decide

/-- C9 (amended): in the GitHub-release backend, force mode uploads every
photo of the run exactly once (the upload list is the input list itself),
schedules for deletion exactly those generated target filenames that are
present among the existing assets, and a delete failure changes neither the
upload list nor the deletion list (it is only logged). -/
theorem c9_force_reupload_github (photo_urls : List PhotoData)
    (existing_assets : List String) :
    ((partitionPhotos photo_urls existing_assets true).1 = photo_urls)
    ∧ (∀ k, k ∈ (partitionPhotos photo_urls existing_assets true).2.2 ↔
        k ∈ photo_urls.map (·.filename) ∧ k ∈ existing_assets)
    ∧ (∀ ok, (ghForceRun photo_urls existing_assets ok).1 = photo_urls
        ∧ (ghForceRun photo_urls existing_assets ok).2.1
          = (partitionPhotos photo_urls existing_assets true).2.2) := by
  refine ⟨rfl, ?_, fun ok => ⟨rfl, rfl⟩⟩
  intro k
  have hp2 : (partitionPhotos photo_urls existing_assets true).2.2
      = (photo_urls.filter
          (fun p => decide (p.filename ∈ existing_assets))).map
        (·.filename) := rfl
  rw [hp2]
  simp only [List.mem_map, List.mem_filter, decide_eq_true_eq]
  constructor
  · rintro ⟨p, ⟨hp, hin⟩, rfl⟩
    exact ⟨⟨p, hp, rfl⟩, hin⟩
  · rintro ⟨⟨p, hp, rfl⟩, hin⟩
    exact ⟨p, ⟨hp, hin⟩, rfl⟩

theorem dictGet_dictSet_self {α : Type} (m : List (String × α)) (k : String)
    (v : α) : dictGet (dictSet m k v) k = some v := by
  induction m with
  | nil => simp [dictGet, dictSet]
  | cons e rest ih =>
    by_cases h : e.1 = k
    · simp [dictGet, dictSet, h]
    · simp [dictGet, dictSet, h, ih]

theorem dictGet_dictSet_ne {α : Type} (m : List (String × α)) {k k' : String}
    (v : α) (h : k ≠ k') : dictGet (dictSet m k v) k' = dictGet m k' := by
  induction m with
  | nil => simp [dictGet, dictSet, h]
  | cons e rest ih =>
    by_cases he : e.1 = k
    · simp [dictGet, dictSet, he, h]
    · simp only [dictSet, if_neg he]
      by_cases he2 : e.1 = k'
      · simp [dictGet, he2]
      · simp [dictGet, he2, ih]

theorem mergeScanned_notin (scanned : List (String × ShootData)) :
    ∀ acc id, id ∉ scanned.map Prod.fst →
      dictGet (mergeScanned acc scanned) id = dictGet acc id := by
  induction scanned with
  | nil => intro acc id _; rfl
  | cons e rest ih =>
    intro acc id h
    simp only [List.map_cons, List.mem_cons, not_or] at h
    obtain ⟨hne, hrest⟩ := h
    show dictGet (mergeScanned _ rest) id = dictGet acc id
    rw [ih _ id hrest]
    cases hget : dictGet acc e.1 <;>
      simp [hget, dictGet_dictSet_ne _ _ (fun hh => hne hh.symm)]

/-- C10: manifest write frame property. The publish-pipeline manifest update
`data[shoot_id] = shoot_data` changes at most the entry keyed by the
published shoot id: every other key maps to exactly the same value
afterwards. -/
theorem c10_manifest_frame {α : Type} (data : List (String × α))
    (shoot_id k : String) (v : α) (h : k ≠ shoot_id) :
    dictGet (update_photos_json data shoot_id v) k = dictGet data k :=
  dictGet_dictSet_ne data v (Ne.symm h)

/-- Witness for C10 at a concrete manifest. -/
theorem c10_witness :
    dictGet (update_photos_json [("a", 1), ("b", 2)] "a" 5) "b"
      = dictGet [("a", 1), ("b", 2)] "b" :=
  c10_manifest_frame [("a", 1), ("b", 2)] "a" "b" 5 (by decide)

/-- C2 counterexample: the publish pipeline's `update_photos_json` replaces
the whole entry for the published shoot id, so a previously stored custom
title is overwritten by the newly computed one rather than preserved. -/
theorem c2_counterexample :
    dictGet (update_photos_json
        [("s", (⟨"Custom Title", "Custom description", "waterfront",
          ["old.jpg"]⟩ : ShootData))]
        "s" (⟨"S", "Professional aerial photography of s", "residential",
          ["new.jpg"]⟩ : ShootData)) "s"
      = some ⟨"S", "Professional aerial photography of s", "residential",
          ["new.jpg"]⟩
    ∧ ("S" : String) ≠ "Custom Title" := by
  decide

/-- C2 (amended): the preserving merge is the one in `manage_photos.py`. For
a scanned shoot list with distinct ids, merging into an existing manifest
keeps the stored title, description and category of an already-present shoot
id and replaces only its image list, and inserts a previously-unseen shoot id
verbatim. -/
theorem c2_manage_merge_preserves (scanned : List (String × ShootData)) :
    ∀ acc id sd, (scanned.map Prod.fst).Nodup → (id, sd) ∈ scanned →
      (∀ old, dictGet acc id = some old →
        dictGet (mergeScanned acc scanned) id
          = some ⟨old.title, old.description, old.category, sd.images⟩)
      ∧ (dictGet acc id = none →
          dictGet (mergeScanned acc scanned) id = some sd) := by
  induction scanned with
  | nil => intro acc id sd _ hmem; cases hmem
  | cons e rest ih =>
    intro acc id sd hnd hmem
    simp only [List.map_cons, List.nodup_cons] at hnd
    obtain ⟨hhead, hndrest⟩ := hnd
    rcases List.mem_cons.mp hmem with heq | hrest
    · subst heq
      constructor
      · intro old hold
        show dictGet (mergeScanned _ rest) id = _
        rw [mergeScanned_notin rest _ id hhead, hold,
          dictGet_dictSet_self]
      · intro hnone
        show dictGet (mergeScanned _ rest) id = _
        rw [mergeScanned_notin rest _ id hhead, hnone,
          dictGet_dictSet_self]
    · have hid : id ∈ rest.map Prod.fst :=
        List.mem_map.mpr ⟨(id, sd), hrest, rfl⟩
      have hne : e.1 ≠ id := fun hh => hhead (hh ▸ hid)
      have hacc : ∀ acc2 : Manifest,
          dictGet
            (match dictGet acc2 e.1 with
             | some old => dictSet acc2 e.1 { old with images := e.2.images }
             | none => dictSet acc2 e.1 e.2) id = dictGet acc2 id := by
        intro acc2
        cases hget : dictGet acc2 e.1 <;>
          simp [hget, dictGet_dictSet_ne _ _ hne]
      constructor
      · intro old hold
        exact ((ih _ id sd hndrest hrest).1) old ((hacc acc).trans hold)
      · intro hnone
        exact ((ih _ id sd hndrest hrest).2) ((hacc acc).trans hnone)

/-- Witness for C2's amended theorem at a concrete manifest: a custom title,
description and category survive re-scanning while the image list is
replaced. -/
theorem c2_witness :
    dictGet
      (mergeScanned
        [("s", (⟨"Custom Title", "Custom description", "waterfront",
          ["old.jpg"]⟩ : ShootData))]
        [("s", (⟨"S", "generated", "residential", ["new.jpg"]⟩ : ShootData))])
      "s"
      = some ⟨"Custom Title", "Custom description", "waterfront",
          ["new.jpg"]⟩ :=
  ((c2_manage_merge_preserves
      [("s", (⟨"S", "generated", "residential", ["new.jpg"]⟩ : ShootData))]
      [("s", (⟨"Custom Title", "Custom description", "waterfront",
        ["old.jpg"]⟩ : ShootData))]
      "s" ⟨"S", "generated", "residential", ["new.jpg"]⟩
      (by decide) (by decide)).1)
    ⟨"Custom Title", "Custom description", "waterfront", ["old.jpg"]⟩
    (by decide)

/-- C8 counterexample: in the publishing pipeline the manifest is parsed
inside `update_photos_json` with no exception handler, so an existing but
unparseable manifest propagates the parse error (the run crashes) instead of
being reset to an empty manifest. -/
theorem c8_counterexample :
    pipelineManifestLoad true (Except.error "Expecting value")
      = Except.error "Expecting value" := rfl

/-- C8 (amended): the corrupt-manifest recovery holds for
`load_existing_config` in `manage_photos.py`: a missing file or an
unparseable existing file yields the empty manifest (with a warning) and a
parseable file yields its contents — this loader never propagates a parse
error. -/
theorem c8_corrupt_manifest_recovery (msg : String)
    (parsed : Except String Manifest) :
    load_existing_config true (Except.error msg) = []
    ∧ load_existing_config false parsed = []
    ∧ (∀ d, load_existing_config true (Except.ok d) = d) :=
  ⟨rfl, rfl, fun _ => rfl⟩

/-- Witness for C8's amended theorem at a concrete corrupt input. -/
theorem c8_witness : load_existing_config true (Except.error "bad json") = [] :=
  (c8_corrupt_manifest_recovery "bad json" (Except.ok [])).1

/-- Witness for C9's amended theorem at a concrete input: a present target
key lands in the GitHub backend's deletion schedule. -/
theorem c9_witness :
    "k.jpg" ∈ (partitionPhotos [⟨"k.jpg", "o.jpg"⟩] ["k.jpg"] true).2.2 :=
  ((c9_force_reupload_github [⟨"k.jpg", "o.jpg"⟩] ["k.jpg"]).2.1
    "k.jpg").mpr ⟨by decide, by decide⟩

end WaypointMedia
